import Mathlib

/-!
# Verification of the `httpcheck` HTTP Status Checker CLI

A shallow embedding of `src/httpcheck.js` (HTTP Status Checker CLI) and
proofs about its behaviour.  The embedding models:

* the configuration record built by `parseArgs` and its defaults;
* the per-URL check engine `checkURL` (retries, redirect following,
  error/timeout handling), with the network abstracted as an oracle
  `net : String → Int → Outcome` giving the outcome of each attempt at a
  URL, and `Location`-header resolution abstracted as
  `resolve : String → String → String` (modelling `new URL(loc, base)`);
* the bounded-concurrency dispatch loop `runChecks` as a state machine;
* the summary computation `printSummary`, the exporter `exportResults`
  with its CSV rendering, and the tail of `main` after the checks finish.

JavaScript numbers that the program manipulates as integers are modelled
as `Int` (they come from `parseInt` and `Date.now()` differences); status
codes and byte counts as `Nat`.  Asynchronous functions returning
promises are modelled as functions returning a `CheckOutcome` (resolved
value, rejection, or divergence, i.e. a promise that never settles),
with a fuel parameter making the recursion total: `diverge` is returned
when the fuel runs out, so a result other than `diverge` is one the
program actually produces.
-/

namespace HttpCheck

/-- The options record built by `parseArgs` (src/httpcheck.js lines 62-76).
Numeric fields are `Int` because `parseInt` can produce any integer. -/
structure Options where
  urls : List String
  file : Option String
  timeout : Int
  retries : Int
  followRedirects : Bool
  maxRedirects : Int
  method : String
  headers : List (String × String)
  output : Option String
  format : String
  concurrent : Int
  verbose : Bool
  quiet : Bool
deriving Repr, DecidableEq

/-- The defaults assigned in `parseArgs` before the argument loop runs. -/
def defaultOptions : Options :=
  { urls := []
    file := none
    timeout := 10000
    retries := 1
    followRedirects := true
    maxRedirects := 10
    method := "GET"
    headers := []
    output := none
    format := "table"
    concurrent := 5
    verbose := false
    quiet := false }

/-- One entry of a result's `redirects` array: `{from, to, status}`
(`from`/`to` are renamed `fromURL`/`toURL` because `from` is reserved). -/
structure RedirectEntry where
  fromURL : String
  toURL : String
  status : Nat
deriving Repr, DecidableEq

/-- The result record `checkURL` resolves with (src/httpcheck.js
lines 223-232 and the failure records at lines 272-281, 292-301). -/
structure CheckResult where
  url : String
  status : Nat
  statusText : String
  responseTime : Int
  size : Nat
  headers : List (String × String)
  redirects : List RedirectEntry
  error : Option String
deriving Repr, DecidableEq

/-- The `STATUS_CODES` table (src/httpcheck.js lines 39-55). -/
def STATUS_CODES : List (Nat × String) :=
  [(200, "OK"), (201, "Created"), (204, "No Content"),
   (301, "Moved Permanently"), (302, "Found"), (304, "Not Modified"),
   (400, "Bad Request"), (401, "Unauthorized"), (403, "Forbidden"),
   (404, "Not Found"), (405, "Method Not Allowed"),
   (500, "Internal Server Error"), (502, "Bad Gateway"),
   (503, "Service Unavailable"), (504, "Gateway Timeout")]

/-- `STATUS_CODES[code] || 'Unknown'` (src/httpcheck.js line 226). -/
def statusTextOf (code : Nat) : String :=
  (STATUS_CODES.lookup code).getD "Unknown"

/-- The redirect status codes list `[301, 302, 307, 308]`
(src/httpcheck.js line 236). -/
def redirectCodes : List Nat := [301, 302, 307, 308]

/-- String prefix test (JS `String.prototype.startsWith`), phrased over
the character lists so that it evaluates inside the kernel. -/
def strStarts (p s : String) : Bool :=
  List.isPrefixOf p.data s.data

/-- Models the success condition of Node's WHATWG `new URL(url)`
constructor for the http(s) URLs this program is about: parsing succeeds
when the string has an `http://` or `https://` scheme followed by a
nonempty remainder (so for example `new URL("https://")` throws).  The
real parser accepts further schemes; over http(s) inputs this captures
the success/failure split the program depends on. -/
def urlParseOk (s : String) : Bool :=
  (strStarts "http://" s && 7 < s.length) ||
    (strStarts "https://" s && 8 < s.length)

/-- A received HTTP response, as `checkURL`'s response callback sees it:
status code, headers, body length, and the elapsed time
`endTime - startTime` measured for this attempt. -/
structure Response where
  statusCode : Nat
  headers : List (String × String)
  bodyLength : Nat
  elapsed : Int
deriving Repr, DecidableEq

/-- The outcome of one network attempt: a response (the `protocol.request`
callback fires and the body is read), a connection-level error (the
`error` event, carrying the error message and the elapsed time
`Date.now() - startTime` at which it fires), or a timeout (the `timeout`
event). -/
inductive Outcome where
  | response (res : Response)
  | connError (message : String) (elapsed : Int)
  | timeout
deriving Repr, DecidableEq

/-- `res.headers.location` read as a string: the empty string when the
header is absent (reading it in a boolean position is then falsy, which
is also the JS behaviour for an empty-string header value). -/
def headerLocation (hs : List (String × String)) : String :=
  (List.lookup "location" hs).getD ""

/-- Observable events of one `checkURL` call tree: network attempts
dispatched (with their attempt number) and `setTimeout` backoff waits. -/
inductive Ev where
  | attempt (url : String) (n : Int)
  | wait (ms : Int)
deriving Repr, DecidableEq

def Ev.isAttempt : Ev → Bool
  | .attempt _ _ => true
  | .wait _ => false

/-- How a `checkURL` promise can end up: resolved with a result, rejected
(the `async` function threw), or never settling. -/
inductive CheckOutcome where
  | ok (r : CheckResult)
  | thrown (message : String)
  | diverge
deriving Repr, DecidableEq

/-- Shallow embedding of `checkURL(url, options, attempt)`
(src/httpcheck.js lines 195-307).  `net url attempt` is the outcome of
the network attempt; `resolve loc base` models
`new URL(loc, base).toString()`.  The second component is the trace of
attempts and backoff waits.  Faithfulness notes:

* `new URL(url)` on line 197 runs before anything else; on an
  unparseable URL the async function rejects (`thrown`).
* Line 238 computes `(res.req?._redirectCount || 0) + 1`; nothing in the
  program ever assigns `_redirectCount`, so the read is always
  `undefined` and `redirectCount` is the constant `1`.
* If the recursive redirect call rejects, the outer promise's `resolve`
  is never called, so the outer call never settles (`diverge`). -/
def checkURL (net : String → Int → Outcome) (resolve : String → String → String)
    (options : Options) : Nat → String → Int → CheckOutcome × List Ev
  | 0, _, _ => (.diverge, [])
  | fuel + 1, url, attempt =>
    if urlParseOk url then
      match net url attempt with
      | .response res =>
        let result : CheckResult :=
          { url := url
            status := res.statusCode
            statusText := statusTextOf res.statusCode
            responseTime := res.elapsed
            size := res.bodyLength
            headers := res.headers
            redirects := []
            error := none }
        if options.followRedirects && redirectCodes.contains res.statusCode &&
            !(headerLocation res.headers).isEmpty then
          -- `const redirectCount = (res.req?._redirectCount || 0) + 1;`
          let redirectCount : Int := 0 + 1
          if redirectCount ≤ options.maxRedirects then
            let redirectURL := resolve (headerLocation res.headers) url
            match checkURL net resolve options fuel redirectURL 1 with
            | (.ok rr, evs) =>
              (.ok { result with
                  status := rr.status
                  statusText := rr.statusText
                  responseTime := result.responseTime + rr.responseTime
                  size := rr.size
                  headers := rr.headers
                  redirects := result.redirects ++ [⟨url, redirectURL, res.statusCode⟩]
                    ++ rr.redirects },
               .attempt url attempt :: evs)
            | (.thrown _, evs) => (.diverge, .attempt url attempt :: evs)
            | (.diverge, evs) => (.diverge, .attempt url attempt :: evs)
          else (.ok result, [.attempt url attempt])
        else (.ok result, [.attempt url attempt])
      | .connError msg elapsed =>
        if attempt < options.retries then
          let next := checkURL net resolve options fuel url (attempt + 1)
          (next.1, .attempt url attempt :: .wait (1000 * attempt) :: next.2)
        else
          (.ok { url := url, status := 0, statusText := "Error",
                 responseTime := elapsed, size := 0, headers := [],
                 redirects := [], error := some msg },
           [.attempt url attempt])
      | .timeout =>
        if attempt < options.retries then
          let next := checkURL net resolve options fuel url (attempt + 1)
          (next.1, .attempt url attempt :: .wait (1000 * attempt) :: next.2)
        else
          (.ok { url := url, status := 0, statusText := "Timeout",
                 responseTime := options.timeout, size := 0, headers := [],
                 redirects := [], error := some "Request timeout" },
           [.attempt url attempt])
    else (.thrown "Invalid URL", [])

/-! ## The bounded-concurrency dispatch loop `runChecks` -/

/-- One entry of `runChecks`' `running` array.  A native JavaScript
`Promise` has no `isFulfilled` property and nothing in the program ever
assigns one, so reading `running[i].isFulfilled` always yields
`undefined` (falsy); the field records that (never-written) flag. -/
structure RPromise where
  url : String
  isFulfilled : Bool
deriving Repr, DecidableEq

/-- The mutable state of `runChecks` (src/httpcheck.js lines 313-315):
the not-yet-dispatched queue, the `running` array, and the collected
results. -/
structure RunState where
  queue : List String
  running : List RPromise
  results : List CheckResult
deriving Repr, DecidableEq

/-- The inner dispatch loop
`while (running.length < options.concurrent && queue.length > 0)`
(src/httpcheck.js lines 319-329): shift a URL off the queue and push its
promise (with its never-set `isFulfilled` flag) onto `running`;
returns the final queue and running list. -/
def dispatchNewAux (concurrent : Int) :
    List String → List RPromise → List String × List RPromise
  | [], running => ([], running)
  | url :: rest, running =>
    if (running.length : Int) < concurrent then
      dispatchNewAux concurrent rest (running ++ [{ url := url, isFulfilled := false }])
    else (url :: rest, running)

/-- The inner dispatch loop acting on the full `runChecks` state. -/
def dispatchNew (concurrent : Int) (st : RunState) : RunState :=
  { queue := (dispatchNewAux concurrent st.queue st.running).1
    running := (dispatchNewAux concurrent st.queue st.running).2
    results := st.results }

/-- `await Promise.race(running)` followed by the completed-promise
removal pass (src/httpcheck.js lines 332-340).  While the loop is
suspended at the `await`, any set of in-flight checks may complete; each
completion's `.then` callback pushes its result, but nothing sets
`isFulfilled` on the promise object, so the removal pass
(`if (running[i].isFulfilled) running.splice(i, 1)`) keeps exactly the
entries whose flag is still false. -/
def raceRemove (st : RunState) (completed : List CheckResult) : RunState :=
  { st with results := st.results ++ completed
            running := st.running.filter (fun p => !p.isFulfilled) }

/-- The guard of the outer loop
`while (queue.length > 0 || running.length > 0)` (line 317). -/
def loopGuard (st : RunState) : Bool :=
  !st.queue.isEmpty || !st.running.isEmpty

/-- One iteration of the outer `while` loop of `runChecks`
(src/httpcheck.js lines 317-341), parameterised by the batch of
completions that arrive while the iteration is suspended at the
`await`. -/
def runChecksStep (concurrent : Int) (completed : List CheckResult)
    (st : RunState) : RunState :=
  if loopGuard st then
    let st1 := dispatchNew concurrent st
    if 0 < st1.running.length then raceRemove st1 completed else st1
  else st

/-- The state after finitely many iterations of the `runChecks` loop
from the initial state, under an arbitrary completion schedule (one
batch of completed checks per iteration). -/
def runChecksRun (concurrent : Int) (sched : List (List CheckResult))
    (urls : List String) : RunState :=
  sched.foldl (fun st batch => runChecksStep concurrent batch st)
    { queue := urls, running := [], results := [] }

/-! ## Argument parsing -/

/-- The numeric value of a run of decimal digit characters. -/
def digitsVal (ds : List Char) : Nat :=
  ds.foldl (fun a c => 10 * a + (c.toNat - 48)) 0

/-- Models JavaScript `parseInt` on its base-10 path: skip leading
whitespace, read an optional sign and then the longest digit run;
`none` models the `NaN` result when no digit is found. -/
def jsParseInt (s : String) : Option Int :=
  let cs := s.data.dropWhile (fun c => c = ' ' || c = '\t' || c = '\n' || c = '\r')
  match cs with
  | '-' :: rest =>
    match rest.takeWhile Char.isDigit with
    | [] => none
    | ds => some (-(digitsVal ds : Int))
  | '+' :: rest =>
    match rest.takeWhile Char.isDigit with
    | [] => none
    | ds => some (digitsVal ds : Int)
  | _ =>
    match cs.takeWhile Char.isDigit with
    | [] => none
    | ds => some (digitsVal ds : Int)

/-- The `parseInt(args[++i]) || d` idiom: both `NaN` and `0` are falsy,
so both fall back to the default `d`; `args[++i]` past the end of the
array is `undefined` and `parseInt(undefined)` is `NaN`. -/
def parseIntOr (x : Option String) (d : Int) : Int :=
  match x with
  | none => d
  | some s =>
    match jsParseInt s with
    | none => d
    | some n => if n = 0 then d else n

/-- `options.headers[key] = value`: JS object assignment, overwriting an
existing key. -/
def objSet (hs : List (String × String)) (k v : String) : List (String × String) :=
  if hs.any (fun p => p.1 = k) then
    hs.map (fun p => if p.1 = k then (k, v) else p)
  else hs ++ [(k, v)]

/-- `--header` handling (src/httpcheck.js lines 99-104): if the value
contains a colon, split on `:`, use the first part (trimmed) as key and
the rest re-joined with `:` (trimmed) as value. -/
def addHeader (o : Options) (h : Option String) : Options :=
  match h with
  | none => o
  | some s =>
    if s.contains ':' then
      let parts := s.splitOn ":"
      let key := (parts.headD "").trim
      let value := (String.intercalate ":" parts.tail).trim
      { o with headers := objSet o.headers key value }
    else o

/-- The argument loop of `parseArgs` (src/httpcheck.js lines 78-118).
`none` models the `process.exit(0)` taken for `--help`/`--version`.
Flags that consume a value read `args[++i]` (the head of the remaining
list, `undefined` = `none` when absent) and continue after it. -/
def parseArgsLoop : List String → Options → Option Options
  | [], o => some o
  | arg :: rest, o =>
    if arg = "--help" ∨ arg = "-h" then none
    else if arg = "--version" ∨ arg = "-v" then none
    else if arg = "--file" ∨ arg = "-f" then
      parseArgsLoop rest.tail { o with file := rest.head? }
    else if arg = "--timeout" ∨ arg = "-t" then
      parseArgsLoop rest.tail { o with timeout := parseIntOr rest.head? 10000 }
    else if arg = "--retries" ∨ arg = "-r" then
      parseArgsLoop rest.tail { o with retries := parseIntOr rest.head? 1 }
    else if arg = "--no-redirect" then
      parseArgsLoop rest { o with followRedirects := false }
    else if arg = "--max-redirects" then
      parseArgsLoop rest.tail { o with maxRedirects := parseIntOr rest.head? 10 }
    else if arg = "--method" ∨ arg = "-m" then
      parseArgsLoop rest.tail { o with method := ((rest.head?).getD "GET").toUpper }
    else if arg = "--header" ∨ arg = "-H" then
      parseArgsLoop rest.tail (addHeader o rest.head?)
    else if arg = "--output" ∨ arg = "-o" then
      parseArgsLoop rest.tail { o with output := rest.head? }
    else if arg = "--format" then
      parseArgsLoop rest.tail { o with format := (rest.head?).getD "table" }
    else if arg = "--concurrent" ∨ arg = "-c" then
      parseArgsLoop rest.tail { o with concurrent := parseIntOr rest.head? 5 }
    else if arg = "--verbose" ∨ arg = "-V" then
      parseArgsLoop rest { o with verbose := true }
    else if arg = "--quiet" ∨ arg = "-q" then
      parseArgsLoop rest { o with quiet := true }
    else if ¬strStarts "-" arg ∧ urlParseOk arg then
      parseArgsLoop rest { o with urls := o.urls ++ [arg] }
    else parseArgsLoop rest o
termination_by args _ => args.length
decreasing_by all_goals (simp only [List.length_tail, List.length_cons]; omega)

/-- `parseArgs()` over the argv slice: run the loop from the defaults. -/
def parseArgs (args : List String) : Option Options :=
  parseArgsLoop args defaultOptions

/-! ## Summary -/

/-- The numbers `printSummary` computes and prints
(src/httpcheck.js lines 385-404). -/
structure Summary where
  total : Nat
  successful : Nat
  redirects : Nat
  clientErrors : Nat
  serverErrors : Nat
  failed : Nat
  avgTime : Int
deriving Repr, DecidableEq

/-- `Math.round(num / den)` for integer `num` and positive integer
`den`, computed exactly: `Math.round x = ⌊x + 1/2⌋`, so the rounded
quotient is `⌊(2num + den) / (2den)⌋` (floor division). -/
def mathRound (num den : Int) : Int :=
  Int.fdiv (2 * num + den) (2 * den)

/-- Shallow embedding of `printSummary(results)`
(src/httpcheck.js lines 385-404): bucket counts by status class and the
rounded mean of `responseTime` over the whole result set. -/
def printSummary (results : List CheckResult) : Summary :=
  { total := results.length
    successful := (results.filter (fun r => 200 ≤ r.status && r.status < 300)).length
    redirects := (results.filter (fun r => 300 ≤ r.status && r.status < 400)).length
    clientErrors := (results.filter (fun r => 400 ≤ r.status && r.status < 500)).length
    serverErrors := (results.filter (fun r => 500 ≤ r.status)).length
    failed := (results.filter (fun r => r.status = 0)).length
    avgTime := mathRound (results.foldl (fun sum r => sum + r.responseTime) 0)
      results.length }

/-! ## Export -/

/-- JSON string escaping, for the `JSON.stringify` model. -/
def jsonEscape (s : String) : String :=
  s.data.foldr
    (fun c acc =>
      (match c with
       | '"' => "\\\""
       | '\\' => "\\\\"
       | '\n' => "\\n"
       | '\r' => "\\r"
       | '\t' => "\\t"
       | c => String.singleton c) ++ acc) ""

/-- Models `JSON.stringify` of one `CheckResult`, with the fields in
construction order.  (Models the platform serializer up to the `null, 2`
pretty-printing whitespace; the claims below depend only on the `json`
branch succeeding, never on the rendered text.) -/
def jsonOfResult (r : CheckResult) : String :=
  "\x7b\"url\":\"" ++ jsonEscape r.url ++ "\",\"status\":" ++ toString r.status ++
    ",\"statusText\":\"" ++ jsonEscape r.statusText ++ "\",\"responseTime\":" ++
    toString r.responseTime ++ ",\"size\":" ++ toString r.size ++
    ",\"headers\":\x7b" ++
    String.intercalate ","
      (r.headers.map (fun p => "\"" ++ jsonEscape p.1 ++ "\":\"" ++ jsonEscape p.2 ++ "\"")) ++
    "\x7d,\"redirects\":[" ++
    String.intercalate ","
      (r.redirects.map (fun e => "\x7b\"from\":\"" ++ jsonEscape e.fromURL ++
        "\",\"to\":\"" ++ jsonEscape e.toURL ++ "\",\"status\":" ++
        toString e.status ++ "\x7d")) ++
    "],\"error\":" ++
    (match r.error with
     | none => "null"
     | some e => "\"" ++ jsonEscape e ++ "\"") ++ "\x7d"

/-- The CSV header row written by `exportResults`
(src/httpcheck.js line 417). -/
def csvHeader : String :=
  "URL,Status,Status Text,Response Time (ms),Size (bytes),Error\n"

/-- One CSV row (src/httpcheck.js line 419):
the template literal wraps `url`, `statusText` and `error || ''` in
double quotes verbatim, with no escaping of their contents. -/
def csvRow (r : CheckResult) : String :=
  "\"" ++ r.url ++ "\"," ++ toString r.status ++ ",\"" ++ r.statusText ++
    "\"," ++ toString r.responseTime ++ "," ++ toString r.size ++ ",\"" ++
    (r.error.getD "") ++ "\"\n"

/-- Shallow embedding of `exportResults(results, format, ...)`
(src/httpcheck.js lines 409-428): the `switch` produces the exported
content for `'json'` and `'csv'` and throws
`Unknown format: <format>` for anything else (`Except.error` models the
thrown exception). -/
def exportResults (results : List CheckResult) (format : String) :
    Except String String :=
  if format = "json" then
    .ok ("[" ++ String.intercalate "," (results.map jsonOfResult) ++ "]")
  else if format = "csv" then
    .ok (csvHeader ++ String.join (results.map csvRow))
  else .error ("Unknown format: " ++ format)

/-! ## A CSV reader, for the round-trip claim

A standard (RFC 4180 style) CSV row reader: fields are separated by
commas, a field starting with a double quote runs to the matching
closing quote with `""` read as an escaped quote, and the row ends at a
newline.  A malformed row (stray characters after a closing quote, or an
unterminated quoted field) reads as `none`. -/

/-- Read a quoted field after its opening quote: returns the field's
characters and the remainder after the closing quote (`""` reads as an
escaped quote). -/
def csvReadQuoted : List Char → Option (List Char × List Char)
  | [] => none
  | c :: rest =>
    if c = '"' then
      match rest with
      | [] => some ([], [])
      | c2 :: rest2 =>
        if c2 = '"' then (csvReadQuoted rest2).map (fun p => ('"' :: p.1, p.2))
        else some ([], c2 :: rest2)
    else (csvReadQuoted rest).map (fun p => (c :: p.1, p.2))

/-- A character that terminates an unquoted field. -/
def csvStop (c : Char) : Bool := c = ',' || c = '\n'

/-- Read one field: quoted if it starts with a double quote, otherwise
the run of characters up to the next comma or newline. -/
def csvReadField (cs : List Char) : Option (String × List Char) :=
  if cs.head? = some '"' then
    (csvReadQuoted cs.tail).map (fun p => (String.mk p.1, p.2))
  else
    some (String.mk (cs.takeWhile (fun c => !csvStop c)),
      cs.dropWhile (fun c => !csvStop c))

/-- Read the fields of one row; the fuel bounds the number of fields
(one unit per comma suffices). -/
def csvReadRowAux : Nat → List Char → Option (List String × List Char)
  | 0, _ => none
  | fuel + 1, cs =>
    match csvReadField cs with
    | none => none
    | some (f, rest) =>
      match rest with
      | ',' :: rest2 => (csvReadRowAux fuel rest2).map (fun p => (f :: p.1, p.2))
      | '\n' :: rest2 => some ([f], rest2)
      | [] => some ([f], [])
      | _ => none

/-- Read a complete single row: all input consumed. -/
def csvReadRow (s : String) : Option (List String) :=
  match csvReadRowAux (s.length + 1) s.data with
  | some (fs, []) => some fs
  | _ => none

/-- The logical field values of a result, in the CSV column order. -/
def csvFields (r : CheckResult) : List String :=
  [r.url, toString r.status, r.statusText, toString r.responseTime,
   toString r.size, r.error.getD ""]

/-! ## The tail of `main` -/

/-- Console events of the tail of `main` (src/httpcheck.js
lines 458-477), after `await runChecks(urls, options)` has produced the
result set. -/
inductive MainEv where
  | summaryPrinted (s : Summary)
  | savedTo (path : String)
  | errorPrinted (message : String)
deriving Repr, DecidableEq

/-- Shallow embedding of `main` from the point where `runChecks` has
returned `results` (src/httpcheck.js lines 458-477): print the summary
unless quiet, export if an output path was given (a thrown export error
reaches the surrounding `catch`, which prints `Error: <message>` and
exits 1), and otherwise derive the exit code from the failed count.
Returns the ordered console events and the exit code. -/
def mainAfterChecks (options : Options) (results : List CheckResult) :
    List MainEv × Nat :=
  let evs1 : List MainEv :=
    if options.quiet then [] else [.summaryPrinted (printSummary results)]
  let failedExit : Nat :=
    if 0 < (results.filter (fun r => r.status = 0 || 400 ≤ r.status)).length
    then 1 else 0
  match options.output with
  | none => (evs1, failedExit)
  | some path =>
    match exportResults results options.format with
    | .ok _ => (evs1 ++ [.savedTo path], failedExit)
    | .error msg => (evs1 ++ [.errorPrinted ("Error: " ++ msg)], 1)

/-! ## Helpers for the retry and redirect-chain theorems -/

/-- The `error` field of the terminal result produced after the last
failed attempt, as a function of that attempt's outcome. -/
def failMsg : Outcome → Option String
  | .response _ => none
  | .connError m _ => some m
  | .timeout => some "Request timeout"

/-- The `statusText` of the terminal failure result. -/
def failText : Outcome → String
  | .response _ => "Unknown"
  | .connError _ _ => "Error"
  | .timeout => "Timeout"

/-- The `responseTime` of the terminal failure result: the failing
attempt's elapsed time for a connection error, the configured timeout
for a timeout. -/
def failTime (timeoutMs : Int) : Outcome → Int
  | .response _ => 0
  | .connError _ e => e
  | .timeout => timeoutMs

/-- Whether an attempt outcome is a failure (error or timeout). -/
def Outcome.isFailure : Outcome → Bool
  | .response _ => false
  | .connError _ _ => true
  | .timeout => true

/-- The event trace of a run of failing attempts: attempt `a`, backoff
`1000*a`, attempt `a+1`, ..., ending with attempt `a+k` (so `k+1`
attempts in total). -/
def retryTraceFrom (url : String) : Nat → Int → List Ev
  | 0, a => [.attempt url a]
  | k + 1, a => .attempt url a :: .wait (1000 * a) :: retryTraceFrom url k (a + 1)

/-- One hop of a redirect chain: the URL fetched, its 3xx status, the
(absolute) `Location` target, and the attempt's elapsed time and body
size. -/
structure ChainHop where
  url : String
  status : Nat
  location : String
  elapsed : Int
  size : Nat
deriving Repr, DecidableEq

/-- The response a chain hop's server returns. -/
def ChainHop.response (h : ChainHop) : Response :=
  { statusCode := h.status, headers := [("location", h.location)],
    bodyLength := h.size, elapsed := h.elapsed }

/-- The hops link up: each hop's `Location` is the next hop's URL, and
the last hop's `Location` is the final (non-redirect) URL. -/
def chainLinks : List ChainHop → String → Prop
  | [], _ => True
  | [h], finalURL => h.location = finalURL
  | h :: h2 :: t, finalURL => h.location = h2.url ∧ chainLinks (h2 :: t) finalURL

/-- The first URL of a chain. -/
def chainStart : List ChainHop → String → String
  | [], finalURL => finalURL
  | h :: _, _ => h.url

/-! ## Concrete instances used by the theorems below -/

/-- `new URL(loc, base).toString()` when `loc` is already an absolute
URL: the base is ignored and `loc` itself is returned. -/
def absResolve : String → String → String := fun loc _ => loc

/-- A network where `http://a` 301-redirects to `http://b`, `http://b`
302-redirects to `http://c`, and `http://c` answers 200 OK. -/
def netChain2 : String → Int → Outcome := fun u _ =>
  if u = "http://a" then
    .response { statusCode := 301, headers := [("location", "http://b")],
                bodyLength := 5, elapsed := 10 }
  else if u = "http://b" then
    .response { statusCode := 302, headers := [("location", "http://c")],
                bodyLength := 6, elapsed := 20 }
  else if u = "http://c" then
    .response { statusCode := 200, headers := [("content-type", "x")],
                bodyLength := 7, elapsed := 30 }
  else .connError "ECONNREFUSED" 1

/-- The chain-hop description of `netChain2`'s redirecting URLs. -/
def hopsChain2 : List ChainHop :=
  [{ url := "http://a", status := 301, location := "http://b", elapsed := 10, size := 5 },
   { url := "http://b", status := 302, location := "http://c", elapsed := 20, size := 6 }]

/-- The options of a run with `--max-redirects 1`. -/
def optsMax1 : Options := { defaultOptions with maxRedirects := 1 }

/-- The options of a run with `--no-redirect`. -/
def optsNoRedirect : Options := { defaultOptions with followRedirects := false }

/-- A network whose every attempt at every URL fails with a connection
error; message and elapsed time depend on the attempt number. -/
def netDown : String → Int → Outcome := fun _ a =>
  .connError ("connect ECONNREFUSED 93.184.216.34:80 attempt " ++ toString a) (7 * a)

/-- A network that always answers 302 Found with a `Location` header. -/
def net302 : String → Int → Outcome := fun _ _ =>
  .response { statusCode := 302, headers := [("location", "http://y")],
              bodyLength := 4, elapsed := 9 }

/-- Four results with statuses 200, 200, 404, 0 — the aggregate-summary
example from the specification. -/
def resultsExample : List CheckResult :=
  [{ url := "http://a", status := 200, statusText := "OK", responseTime := 100,
     size := 10, headers := [], redirects := [], error := none },
   { url := "http://b", status := 200, statusText := "OK", responseTime := 100,
     size := 11, headers := [], redirects := [], error := none },
   { url := "http://c", status := 404, statusText := "Not Found", responseTime := 50,
     size := 2, headers := [], redirects := [], error := none },
   { url := "http://d", status := 0, statusText := "Error", responseTime := 30,
     size := 0, headers := [], redirects := [], error := some "connect ECONNREFUSED" }]

/-- A result whose `error` field contains a double quote. -/
def rQuote : CheckResult :=
  { url := "http://a", status := 0, statusText := "Error", responseTime := 12,
    size := 0, headers := [], redirects := [], error := some "said \"hi\"" }

/-- A result whose `error` field contains a comma. -/
def rComma : CheckResult :=
  { url := "http://a", status := 0, statusText := "Error", responseTime := 12,
    size := 0, headers := [], redirects := [],
    error := some "connect ECONNREFUSED 93.184.216.34, port 80" }

/-! # Theorems -/

/-- C2: the claim says a redirect chain longer than `maxRedirects` is cut
off after exactly `maxRedirects` hops with the last 3xx response as the
result.  The code violates this: the hop counter reads
`res.req?._redirectCount`, which nothing ever sets, so the ceiling check
compares the constant `1` against `maxRedirects` and every chain is
followed to its end whenever `maxRedirects ≥ 1`.  Concretely, with
`maxRedirects = 1` the two-hop chain `http://a → http://b → http://c` is
followed through both hops and the result is the final 200, with two
redirect entries, not the 302 of the first target. -/
theorem checkURL_ignores_maxRedirects :
    checkURL netChain2 absResolve optsMax1 10 "http://a" 1 =
      (.ok { url := "http://a", status := 200, statusText := "OK",
             responseTime := 60, size := 7,
             headers := [("content-type", "x")],
             redirects := [{ fromURL := "http://a", toURL := "http://b", status := 301 },
                           { fromURL := "http://b", toURL := "http://c", status := 302 }],
             error := none },
       [.attempt "http://a" 1, .attempt "http://b" 1, .attempt "http://c" 1]) ∧
    optsMax1.maxRedirects = 1 := by
  exact ⟨rfl, rfl⟩

/-- C3 counterexample: `checkURL` does not resolve every failure into a
`CheckResult` — `new URL(url)` on line 197 runs outside any handler, so
an unparseable URL (here `"https://"`, which the WHATWG parser rejects
for its empty host) makes the async function reject instead of
resolving. -/
theorem checkURL_throws_on_unparseable :
    checkURL (fun _ _ => .connError "ECONNREFUSED" 1) absResolve defaultOptions
        5 "https://" 1 = (.thrown "Invalid URL", []) := by
  exact rfl

/-- Folding `+ responseTime` over a list from `a` is `a` plus the sum of
the response times. -/
theorem foldl_responseTime (l : List CheckResult) :
    ∀ a : Int, l.foldl (fun sum r => sum + r.responseTime) a =
      a + (l.map (fun r => r.responseTime)).sum := by
  induction l with
  | nil => intro a; simp
  | cons x xs ih => intro a; simp [ih, add_assoc]

/-- C7: for every non-empty result set, the summary buckets counts by
status class (2xx, 3xx, 4xx, 5xx, status 0) and reports the rounded
arithmetic mean of `responseTime` over all results, failed ones
included. -/
theorem printSummary_buckets_and_mean (results : List CheckResult)
    (h : results ≠ []) :
    (printSummary results).total = results.length ∧
    (printSummary results).successful =
      results.countP (fun r => 200 ≤ r.status && r.status < 300) ∧
    (printSummary results).redirects =
      results.countP (fun r => 300 ≤ r.status && r.status < 400) ∧
    (printSummary results).clientErrors =
      results.countP (fun r => 400 ≤ r.status && r.status < 500) ∧
    (printSummary results).serverErrors =
      results.countP (fun r => 500 ≤ r.status) ∧
    (printSummary results).failed = results.countP (fun r => r.status = 0) ∧
    (printSummary results).avgTime =
      mathRound ((results.map (fun r => r.responseTime)).sum) results.length := by
  refine ⟨rfl, ?_, ?_, ?_, ?_, ?_, ?_⟩ <;>
    simp [printSummary, List.countP_eq_length_filter, foldl_responseTime]

/-- C7 witness: the summary over statuses `[200, 200, 404, 0]` has
`success = 2`, `clientErrors = 1`, `failed = 1`, and the mean is taken
over all four entries. -/
theorem printSummary_buckets_and_mean_witness :
    resultsExample ≠ [] ∧
    ((printSummary resultsExample).total = resultsExample.length ∧
     (printSummary resultsExample).successful =
       resultsExample.countP (fun r => 200 ≤ r.status && r.status < 300) ∧
     (printSummary resultsExample).redirects =
       resultsExample.countP (fun r => 300 ≤ r.status && r.status < 400) ∧
     (printSummary resultsExample).clientErrors =
       resultsExample.countP (fun r => 400 ≤ r.status && r.status < 500) ∧
     (printSummary resultsExample).serverErrors =
       resultsExample.countP (fun r => 500 ≤ r.status) ∧
     (printSummary resultsExample).failed =
       resultsExample.countP (fun r => r.status = 0) ∧
     (printSummary resultsExample).avgTime =
       mathRound ((resultsExample.map (fun r => r.responseTime)).sum)
         resultsExample.length) ∧
    (printSummary resultsExample).successful = 2 ∧
    (printSummary resultsExample).clientErrors = 1 ∧
    (printSummary resultsExample).failed = 1 ∧
    (printSummary resultsExample).avgTime = 70 := by
  refine ⟨by decide, printSummary_buckets_and_mean resultsExample (by decide),
    by decide, by decide, by decide, by decide⟩

/-- C10: an `--output` run with the default format `table` prints the
summary, then `exportResults` throws `Unknown format: table`, which
`main`'s catch prints as `Error: Unknown format: table` before exiting
with code 1; export succeeds exactly for the formats `json` and
`csv`. -/
theorem main_table_export_fails (options : Options) (results : List CheckResult)
    (path : String) (hq : options.quiet = false) (hf : options.format = "table")
    (ho : options.output = some path) :
    mainAfterChecks options results =
      ([.summaryPrinted (printSummary results),
        .errorPrinted "Error: Unknown format: table"], 1) ∧
    (∃ c, exportResults results "json" = .ok c) ∧
    (∃ c, exportResults results "csv" = .ok c) ∧
    (∀ fmt, fmt ≠ "json" → fmt ≠ "csv" →
      exportResults results fmt = .error ("Unknown format: " ++ fmt)) := by
  refine ⟨?_, ⟨_, rfl⟩, ⟨_, rfl⟩, ?_⟩
  · simp [mainAfterChecks, exportResults, hq, hf, ho]
  · intro fmt h1 h2
    simp [exportResults, h1, h2]

/-- C10 witness: the concrete run `--output results.txt` (format left at
its default `table`) over one 200 result. -/
theorem main_table_export_fails_witness :
    ({ defaultOptions with output := some "results.txt" } : Options).quiet = false ∧
    ({ defaultOptions with output := some "results.txt" } : Options).format = "table" ∧
    ({ defaultOptions with output := some "results.txt" } : Options).output =
      some "results.txt" ∧
    (mainAfterChecks { defaultOptions with output := some "results.txt" }
        resultsExample =
      ([.summaryPrinted (printSummary resultsExample),
        .errorPrinted "Error: Unknown format: table"], 1) ∧
    (∃ c, exportResults resultsExample "json" = .ok c) ∧
    (∃ c, exportResults resultsExample "csv" = .ok c) ∧
    (∀ fmt, fmt ≠ "json" → fmt ≠ "csv" →
      exportResults resultsExample fmt = .error ("Unknown format: " ++ fmt))) := by
  exact ⟨rfl, rfl, rfl,
    main_table_export_fails _ resultsExample "results.txt" rfl rfl rfl⟩

/-- `dispatchNew` moves entries from the queue to the running list: it
preserves the total of the two lengths, only appends to `running`, and
every promise it adds has its (never-to-be-set) `isFulfilled` flag
false. -/
theorem dispatchNewAux_preserves (concurrent : Int) (queue : List String) :
    ∀ running : List RPromise, (∀ p ∈ running, p.isFulfilled = false) →
    (dispatchNewAux concurrent queue running).1.length
        + (dispatchNewAux concurrent queue running).2.length
      = queue.length + running.length ∧
    (∀ p ∈ (dispatchNewAux concurrent queue running).2, p.isFulfilled = false) := by
  induction queue with
  | nil =>
    intro running hflags
    exact ⟨rfl, hflags⟩
  | cons url rest ih =>
    intro running hflags
    by_cases hlt : (running.length : Int) < concurrent
    · have hflags2 : ∀ p ∈ running ++ [{ url := url, isFulfilled := false }],
          p.isFulfilled = false := by
        intro p hp
        rcases List.mem_append.mp hp with h | h
        · exact hflags p h
        · simp only [List.mem_singleton] at h
          rw [h]
      obtain ⟨h1, h2⟩ := ih (running ++ [{ url := url, isFulfilled := false }]) hflags2
      rw [dispatchNewAux]
      simp only [hlt, if_true]
      refine ⟨?_, h2⟩
      rw [h1]
      simp
      omega
    · rw [dispatchNewAux]
      simp only [hlt, if_false]
      exact ⟨by simp, hflags⟩

/-- `dispatchNew` preserves the queue+running total, keeps every flag
false, and leaves the results untouched. -/
theorem dispatchNew_preserves (concurrent : Int) (st : RunState)
    (hflags : ∀ p ∈ st.running, p.isFulfilled = false) :
    (dispatchNew concurrent st).queue.length + (dispatchNew concurrent st).running.length
      = st.queue.length + st.running.length ∧
    (∀ p ∈ (dispatchNew concurrent st).running, p.isFulfilled = false) ∧
    (dispatchNew concurrent st).results = st.results := by
  obtain ⟨h1, h2⟩ := dispatchNewAux_preserves concurrent st.queue st.running hflags
  exact ⟨h1, h2, rfl⟩

/-- The loop-body invariant of `runChecks`: the outer `while` guard is
true and no promise in `running` carries a true `isFulfilled` flag
(native promises have no such property).  One iteration preserves it:
the removal pass `if (running[i].isFulfilled) running.splice(i, 1)`
removes nothing, so `running` never shrinks and the guard never becomes
false. -/
theorem runChecksStep_invariant (concurrent : Int) (batch : List CheckResult)
    (st : RunState) (hg : loopGuard st = true)
    (hflags : ∀ p ∈ st.running, p.isFulfilled = false) :
    loopGuard (runChecksStep concurrent batch st) = true ∧
    (∀ p ∈ (runChecksStep concurrent batch st).running, p.isFulfilled = false) := by
  obtain ⟨hlen, hflags1, -⟩ := dispatchNew_preserves concurrent st hflags
  have hsum : 0 < st.queue.length + st.running.length := by
    unfold loopGuard at hg
    rcases Bool.or_eq_true_iff.mp hg with h | h
    · have : st.queue ≠ [] := by
        intro he
        rw [he] at h
        simp at h
      have := List.length_pos.mpr this
      omega
    · have : st.running ≠ [] := by
        intro he
        rw [he] at h
        simp at h
      have := List.length_pos.mpr this
      omega
  rw [runChecksStep, if_pos hg]
  set st1 := dispatchNew concurrent st with hst1
  have hkeep : st1.running.filter (fun p => !p.isFulfilled) = st1.running := by
    rw [List.filter_eq_self]
    intro p hp
    rw [hflags1 p hp]
    rfl
  by_cases hr : 0 < st1.running.length
  · rw [if_pos hr]
    unfold raceRemove loopGuard
    simp only [hkeep]
    constructor
    · have : st1.running ≠ [] := by
        intro he
        rw [he] at hr
        simp at hr
      simp [this]
    · exact hflags1
  · rw [if_neg hr]
    have hq1 : 0 < st1.queue.length := by omega
    constructor
    · unfold loopGuard
      have : st1.queue ≠ [] := by
        intro he
        rw [he] at hq1
        simp at hq1
      simp [this]
    · exact hflags1

/-- C1: the claim says `runChecks` dispatches all URLs under the
concurrency bound, terminates, and returns one result per URL.  The code
cannot terminate: the cleanup pass tests `running[i].isFulfilled`, a
property native promises do not have and that nothing in the program
sets, so settled promises are never removed from `running` and the guard
`queue.length > 0 || running.length > 0` stays true forever — under
every completion schedule, after any number of loop iterations the loop
guard still holds, so the loop never exits and `runChecks` never returns
its results. -/
theorem runChecks_never_terminates (urls : List String) (concurrent : Int)
    (h : urls ≠ []) (sched : List (List CheckResult)) :
    loopGuard (runChecksRun concurrent sched urls) = true ∧
    ∀ p ∈ (runChecksRun concurrent sched urls).running, p.isFulfilled = false := by
  unfold runChecksRun
  induction sched using List.reverseRecOn with
  | nil =>
    simp only [List.foldl_nil]
    constructor
    · unfold loopGuard
      simp [h]
    · intro p hp
      simp at hp
  | append_singleton batches batch ih =>
    rw [List.foldl_append, List.foldl_cons, List.foldl_nil]
    exact runChecksStep_invariant concurrent batch _ ih.1 ih.2

/-- C1 witness: a single-URL run with the default concurrency limit,
observed over two loop iterations: the guard is still true. -/
theorem runChecks_never_terminates_witness :
    (["http://a"] : List String) ≠ [] ∧
    loopGuard (runChecksRun 5 [[], []] ["http://a"]) = true := by
  exact ⟨by decide, (runChecks_never_terminates ["http://a"] 5 (by decide) [[], []]).1⟩

/-- `parseInt(x) || d` never produces zero when the fallback `d` is
nonzero: `0` itself falls back to `d`. -/
theorem parseIntOr_ne_zero (x : Option String) (d : Int) (hd : d ≠ 0) :
    parseIntOr x d ≠ 0 := by
  cases x with
  | none => simp [parseIntOr, hd]
  | some s =>
    cases hj : jsParseInt s with
    | none => simp [parseIntOr, hj, hd]
    | some n => by_cases hn : n = 0 <;> simp [parseIntOr, hj, hn, hd]

theorem addHeader_timeout (o : Options) (h : Option String) :
    (addHeader o h).timeout = o.timeout := by
  cases h with
  | none => rfl
  | some s => by_cases hc : s.contains ':' <;> simp [addHeader, hc]

theorem addHeader_retries (o : Options) (h : Option String) :
    (addHeader o h).retries = o.retries := by
  cases h with
  | none => rfl
  | some s => by_cases hc : s.contains ':' <;> simp [addHeader, hc]

theorem addHeader_maxRedirects (o : Options) (h : Option String) :
    (addHeader o h).maxRedirects = o.maxRedirects := by
  cases h with
  | none => rfl
  | some s => by_cases hc : s.contains ':' <;> simp [addHeader, hc]

theorem addHeader_concurrent (o : Options) (h : Option String) :
    (addHeader o h).concurrent = o.concurrent := by
  cases h with
  | none => rfl
  | some s => by_cases hc : s.contains ':' <;> simp [addHeader, hc]

/-- The argument loop can never drive the numeric options to zero:
each assignment goes through `parseInt(...) || default` with a nonzero
default. -/
theorem parseArgsLoop_nonzero :
    ∀ (n : Nat) (args : List String) (o res : Options), args.length ≤ n →
      o.timeout ≠ 0 → o.retries ≠ 0 → o.maxRedirects ≠ 0 → o.concurrent ≠ 0 →
      parseArgsLoop args o = some res →
      res.timeout ≠ 0 ∧ res.retries ≠ 0 ∧ res.maxRedirects ≠ 0 ∧
        res.concurrent ≠ 0 := by
  intro n
  induction n with
  | zero =>
    intro args o res hlen h1 h2 h3 h4 heq
    have hargs : args = [] := List.length_eq_zero.mp (Nat.le_zero.mp hlen)
    subst hargs
    simp only [parseArgsLoop, Option.some.injEq] at heq
    subst heq
    exact ⟨h1, h2, h3, h4⟩
  | succ n ih =>
    intro args o res hlen h1 h2 h3 h4 heq
    match args with
    | [] =>
      simp only [parseArgsLoop, Option.some.injEq] at heq
      subst heq
      exact ⟨h1, h2, h3, h4⟩
    | arg :: rest =>
      have hlen1 : rest.length ≤ n := by
        simp only [List.length_cons] at hlen
        omega
      have hlen2 : rest.tail.length ≤ n := by
        have := List.length_tail rest
        omega
      rw [parseArgsLoop] at heq
      by_cases c1 : arg = "--help" ∨ arg = "-h"
      · rw [if_pos c1] at heq
        exact Option.noConfusion heq
      rw [if_neg c1] at heq
      by_cases c2 : arg = "--version" ∨ arg = "-v"
      · rw [if_pos c2] at heq
        exact Option.noConfusion heq
      rw [if_neg c2] at heq
      by_cases c3 : arg = "--file" ∨ arg = "-f"
      · rw [if_pos c3] at heq
        exact ih rest.tail { o with file := rest.head? } res hlen2 h1 h2 h3 h4 heq
      rw [if_neg c3] at heq
      by_cases c4 : arg = "--timeout" ∨ arg = "-t"
      · rw [if_pos c4] at heq
        exact ih rest.tail { o with timeout := parseIntOr rest.head? 10000 } res
          hlen2 (parseIntOr_ne_zero rest.head? 10000 (by decide)) h2 h3 h4 heq
      rw [if_neg c4] at heq
      by_cases c5 : arg = "--retries" ∨ arg = "-r"
      · rw [if_pos c5] at heq
        exact ih rest.tail { o with retries := parseIntOr rest.head? 1 } res
          hlen2 h1 (parseIntOr_ne_zero rest.head? 1 (by decide)) h3 h4 heq
      rw [if_neg c5] at heq
      by_cases c6 : arg = "--no-redirect"
      · rw [if_pos c6] at heq
        exact ih rest { o with followRedirects := false } res hlen1 h1 h2 h3 h4 heq
      rw [if_neg c6] at heq
      by_cases c7 : arg = "--max-redirects"
      · rw [if_pos c7] at heq
        exact ih rest.tail { o with maxRedirects := parseIntOr rest.head? 10 } res
          hlen2 h1 h2 (parseIntOr_ne_zero rest.head? 10 (by decide)) h4 heq
      rw [if_neg c7] at heq
      by_cases c8 : arg = "--method" ∨ arg = "-m"
      · rw [if_pos c8] at heq
        exact ih rest.tail { o with method := ((rest.head?).getD "GET").toUpper } res
          hlen2 h1 h2 h3 h4 heq
      rw [if_neg c8] at heq
      by_cases c9 : arg = "--header" ∨ arg = "-H"
      · rw [if_pos c9] at heq
        refine ih rest.tail (addHeader o rest.head?) res hlen2 ?_ ?_ ?_ ?_ heq
        · rw [addHeader_timeout]
          exact h1
        · rw [addHeader_retries]
          exact h2
        · rw [addHeader_maxRedirects]
          exact h3
        · rw [addHeader_concurrent]
          exact h4
      rw [if_neg c9] at heq
      by_cases c10 : arg = "--output" ∨ arg = "-o"
      · rw [if_pos c10] at heq
        exact ih rest.tail { o with output := rest.head? } res hlen2 h1 h2 h3 h4 heq
      rw [if_neg c10] at heq
      by_cases c11 : arg = "--format"
      · rw [if_pos c11] at heq
        exact ih rest.tail { o with format := (rest.head?).getD "table" } res
          hlen2 h1 h2 h3 h4 heq
      rw [if_neg c11] at heq
      by_cases c12 : arg = "--concurrent" ∨ arg = "-c"
      · rw [if_pos c12] at heq
        exact ih rest.tail { o with concurrent := parseIntOr rest.head? 5 } res
          hlen2 h1 h2 h3 (parseIntOr_ne_zero rest.head? 5 (by decide)) heq
      rw [if_neg c12] at heq
      by_cases c13 : arg = "--verbose" ∨ arg = "-V"
      · rw [if_pos c13] at heq
        exact ih rest { o with verbose := true } res hlen1 h1 h2 h3 h4 heq
      rw [if_neg c13] at heq
      by_cases c14 : arg = "--quiet" ∨ arg = "-q"
      · rw [if_pos c14] at heq
        exact ih rest { o with quiet := true } res hlen1 h1 h2 h3 h4 heq
      rw [if_neg c14] at heq
      by_cases c15 : ¬strStarts "-" arg ∧ urlParseOk arg
      · rw [if_pos c15] at heq
        exact ih rest { o with urls := o.urls ++ [arg] } res hlen1 h1 h2 h3 h4 heq
      rw [if_neg c15] at heq
      exact ih rest o res hlen1 h1 h2 h3 h4 heq

/-- C9: passing `0` (or anything `parseInt` turns into `NaN`) to a
numeric flag silently reinstates the default, because the code uses
`parseInt(args[++i]) || default` and both `NaN` and `0` are falsy:
`--timeout 0` yields 10000, `--retries 0` yields 1, `--max-redirects 0`
yields 10, `--concurrent 0` yields 5 — and no argument list at all can
configure a zero timeout, retry count, redirect ceiling or concurrency
limit. -/
theorem parseArgs_zero_numeric_defaults :
    (∀ s, jsParseInt s = none ∨ jsParseInt s = some 0 →
      parseArgs ["--timeout", s] = some defaultOptions ∧
      parseArgs ["--retries", s] = some defaultOptions ∧
      parseArgs ["--max-redirects", s] = some defaultOptions ∧
      parseArgs ["--concurrent", s] = some defaultOptions) ∧
    (∀ args o, parseArgs args = some o →
      o.timeout ≠ 0 ∧ o.retries ≠ 0 ∧ o.maxRedirects ≠ 0 ∧ o.concurrent ≠ 0) := by
  constructor
  · intro s hs
    have hp0 : ∀ d : Int, parseIntOr (some s) d = d := by
      intro d
      rcases hs with h | h <;> simp [parseIntOr, h]
    refine ⟨?_, ?_, ?_, ?_⟩
    · rw [parseArgs, parseArgsLoop]
      rw [if_neg (by decide), if_neg (by decide), if_neg (by decide),
          if_pos (by decide)]
      simp only [List.head?_cons, List.tail_cons, hp0]
      rw [parseArgsLoop]
      rfl
    · rw [parseArgs, parseArgsLoop]
      rw [if_neg (by decide), if_neg (by decide), if_neg (by decide),
          if_neg (by decide), if_pos (by decide)]
      simp only [List.head?_cons, List.tail_cons, hp0]
      rw [parseArgsLoop]
      rfl
    · rw [parseArgs, parseArgsLoop]
      rw [if_neg (by decide), if_neg (by decide), if_neg (by decide),
          if_neg (by decide), if_neg (by decide), if_neg (by decide),
          if_pos (by decide)]
      simp only [List.head?_cons, List.tail_cons, hp0]
      rw [parseArgsLoop]
      rfl
    · rw [parseArgs, parseArgsLoop]
      rw [if_neg (by decide), if_neg (by decide), if_neg (by decide),
          if_neg (by decide), if_neg (by decide), if_neg (by decide),
          if_neg (by decide), if_neg (by decide), if_neg (by decide),
          if_neg (by decide), if_neg (by decide), if_pos (by decide)]
      simp only [List.head?_cons, List.tail_cons, hp0]
      rw [parseArgsLoop]
      rfl
  · intro args o heq
    exact parseArgsLoop_nonzero args.length args defaultOptions o le_rfl
      (by decide) (by decide) (by decide) (by decide) heq

/-- C9 witness: the concrete command lines `--timeout 0`, `--retries 0`,
`--max-redirects 0`, `--concurrent 0` all parse to the defaults, whose
numeric fields are nonzero. -/
theorem parseArgs_zero_numeric_defaults_witness :
    (jsParseInt "0" = none ∨ jsParseInt "0" = some 0) ∧
    (parseArgs ["--timeout", "0"] = some defaultOptions ∧
     parseArgs ["--retries", "0"] = some defaultOptions ∧
     parseArgs ["--max-redirects", "0"] = some defaultOptions ∧
     parseArgs ["--concurrent", "0"] = some defaultOptions) ∧
    parseArgs [] = some defaultOptions ∧
    (defaultOptions.timeout ≠ 0 ∧ defaultOptions.retries ≠ 0 ∧
     defaultOptions.maxRedirects ≠ 0 ∧ defaultOptions.concurrent ≠ 0) := by
  have hz : jsParseInt "0" = none ∨ jsParseInt "0" = some 0 := Or.inr (by decide)
  have he : parseArgs [] = some defaultOptions := by
    simp [parseArgs, parseArgsLoop]
  exact ⟨hz, parseArgs_zero_numeric_defaults.1 "0" hz, he,
    parseArgs_zero_numeric_defaults.2 [] defaultOptions he⟩

/-- The retry run: when every attempt from `a` through `retries` fails,
`checkURL` retries with linear backoff and resolves with the terminal
failure record of the last attempt. -/
theorem checkURL_fail_run (net : String → Int → Outcome)
    (resolve : String → String → String) (options : Options) (url : String)
    (hp : urlParseOk url = true) :
    ∀ (fuel : Nat) (a : Int), 1 ≤ a → a ≤ options.retries →
      (∀ k, a ≤ k → k ≤ options.retries → (net url k).isFailure = true) →
      (options.retries - a).toNat < fuel →
      checkURL net resolve options fuel url a =
        (.ok { url := url, status := 0,
               statusText := failText (net url options.retries),
               responseTime := failTime options.timeout (net url options.retries),
               size := 0, headers := [], redirects := [],
               error := failMsg (net url options.retries) },
         retryTraceFrom url (options.retries - a).toNat a) := by
  intro fuel
  induction fuel with
  | zero =>
    intro a h1 h2 hf hlt
    omega
  | succ fuel ih =>
    intro a h1 h2 hf hlt
    rw [checkURL, if_pos hp]
    cases hnet : net url a with
    | response res =>
      have hfa := hf a le_rfl h2
      rw [hnet] at hfa
      exact absurd hfa (by simp [Outcome.isFailure])
    | connError msg elapsed =>
      by_cases hlt2 : a < options.retries
      · have harec := ih (a + 1) (by omega) (by omega)
          (fun k hk1 hk2 => hf k (by omega) hk2) (by omega)
        have htr : (options.retries - a).toNat
            = (options.retries - (a + 1)).toNat + 1 := by omega
        rw [htr, retryTraceFrom]
        simp [hlt2, harec]
      · have ha : a = options.retries := by omega
        have h0 : (options.retries - a).toNat = 0 := by omega
        have hnet2 : net url options.retries = .connError msg elapsed := by
          rw [← ha]
          exact hnet
        rw [h0, retryTraceFrom, hnet2]
        simp [hlt2, failText, failMsg, failTime]
    | timeout =>
      by_cases hlt2 : a < options.retries
      · have harec := ih (a + 1) (by omega) (by omega)
          (fun k hk1 hk2 => hf k (by omega) hk2) (by omega)
        have htr : (options.retries - a).toNat
            = (options.retries - (a + 1)).toNat + 1 := by omega
        rw [htr, retryTraceFrom]
        simp [hlt2, harec]
      · have ha : a = options.retries := by omega
        have h0 : (options.retries - a).toNat = 0 := by omega
        have hnet2 : net url options.retries = .timeout := by
          rw [← ha]
          exact hnet
        rw [h0, retryTraceFrom, hnet2]
        simp [hlt2, failText, failMsg, failTime]

/-- A failing run of `k+1` attempts contains exactly `k+1` attempt
events. -/
theorem retryTraceFrom_attempts (url : String) :
    ∀ (k : Nat) (a : Int),
      ((retryTraceFrom url k a).filter Ev.isAttempt).length = k + 1 := by
  intro k
  induction k with
  | zero => intro a; rfl
  | succ k ih => intro a; simp [retryTraceFrom, Ev.isAttempt, ih]

/-- C4: for a URL whose every attempt fails, with `retries = n ≥ 1`,
`checkURL` makes exactly `n` attempts, each retry preceded by a
`setTimeout` backoff of `1000 * attemptNumber` ms (the trace is
attempt 1, wait 1000, attempt 2, wait 2000, ..., attempt n), and the
terminal result has `status = 0`, `error` equal to the last failure's
message, and `responseTime` equal to the last attempt's own elapsed time
for a connection error or the full configured timeout for a timeout —
not a sum over the retries. -/
theorem checkURL_retry_exhaustion (net : String → Int → Outcome)
    (resolve : String → String → String) (options : Options) (url : String)
    (fuel : Nat) (hp : urlParseOk url = true) (hn : 1 ≤ options.retries)
    (hfail : ∀ k, (net url k).isFailure = true)
    (hfuel : options.retries.toNat ≤ fuel) :
    checkURL net resolve options fuel url 1 =
      (.ok { url := url, status := 0,
             statusText := failText (net url options.retries),
             responseTime := failTime options.timeout (net url options.retries),
             size := 0, headers := [], redirects := [],
             error := failMsg (net url options.retries) },
       retryTraceFrom url (options.retries - 1).toNat 1) ∧
    ((retryTraceFrom url (options.retries - 1).toNat 1).filter
        Ev.isAttempt).length = options.retries.toNat := by
  constructor
  · exact checkURL_fail_run net resolve options url hp fuel 1 le_rfl hn
      (fun k _ hk2 => hfail k) (by omega)
  · rw [retryTraceFrom_attempts]
    omega

/-- C4 witness: `netDown` (every attempt refused) with `--retries 3`:
three attempts, backoffs of 1000 ms and 2000 ms, terminal status 0 with
the third attempt's error message and elapsed time. -/
theorem checkURL_retry_exhaustion_witness :
    urlParseOk "http://a" = true ∧
    1 ≤ ({ defaultOptions with retries := 3 } : Options).retries ∧
    3 ≤ 5 ∧
    (checkURL netDown absResolve { defaultOptions with retries := 3 } 5 "http://a" 1 =
      (.ok { url := "http://a", status := 0,
             statusText := failText (netDown "http://a"
               ({ defaultOptions with retries := 3 } : Options).retries),
             responseTime := failTime
               ({ defaultOptions with retries := 3 } : Options).timeout
               (netDown "http://a"
                 ({ defaultOptions with retries := 3 } : Options).retries),
             size := 0, headers := [], redirects := [],
             error := failMsg (netDown "http://a"
               ({ defaultOptions with retries := 3 } : Options).retries) },
       retryTraceFrom "http://a"
         (({ defaultOptions with retries := 3 } : Options).retries - 1).toNat 1) ∧
     ((retryTraceFrom "http://a"
         (({ defaultOptions with retries := 3 } : Options).retries - 1).toNat 1).filter
       Ev.isAttempt).length =
       ({ defaultOptions with retries := 3 } : Options).retries.toNat) := by
  exact ⟨by decide, by decide, by decide,
    checkURL_retry_exhaustion netDown absResolve
      { defaultOptions with retries := 3 } "http://a" 5 (by decide) (by decide)
      (fun k => rfl) (by decide)⟩

/-- C3 amended: `checkURL` rejects exactly when the initial URL fails to
parse (the `new URL(url)` on line 197); on a parseable URL it never
raises, and when every attempt fails the promise resolves with a
`CheckResult` carrying `status = 0` and a non-null `error`. -/
theorem checkURL_no_throw_on_parseable :
    (∀ (net : String → Int → Outcome) (resolve : String → String → String)
       (options : Options) (fuel : Nat) (url : String) (a : Int) (m : String),
       urlParseOk url = true →
       (checkURL net resolve options fuel url a).1 ≠ .thrown m) ∧
    (∀ (net : String → Int → Outcome) (resolve : String → String → String)
       (options : Options) (fuel : Nat) (url : String),
       urlParseOk url = true → 1 ≤ options.retries →
       (∀ k, (net url k).isFailure = true) → options.retries.toNat ≤ fuel →
       ∃ r, (checkURL net resolve options fuel url 1).1 = .ok r ∧
         r.status = 0 ∧ r.error.isSome = true) := by
  constructor
  · intro net resolve options fuel
    induction fuel with
    | zero =>
      intro url a m hp
      simp [checkURL]
    | succ fuel ih =>
      intro url a m hp
      rw [checkURL, if_pos hp]
      cases hnet : net url a with
      | response res =>
        cases hrec : checkURL net resolve options fuel
            (resolve (headerLocation res.headers) url) 1 with
        | mk out evs =>
          cases out <;> simp [hrec] <;> (try (split_ifs <;> simp))
      | connError msg elapsed =>
        by_cases hlt : a < options.retries
        · have := ih url (a + 1) m hp
          simpa [hlt] using this
        · simp [hlt]
      | timeout =>
        by_cases hlt : a < options.retries
        · have := ih url (a + 1) m hp
          simpa [hlt] using this
        · simp [hlt]
  · intro net resolve options fuel url hp hn hfail hfuel
    have h := (checkURL_retry_exhaustion net resolve options url fuel hp hn
      hfail hfuel).1
    refine ⟨{ url := url, status := 0,
              statusText := failText (net url options.retries),
              responseTime := failTime options.timeout (net url options.retries),
              size := 0, headers := [], redirects := [],
              error := failMsg (net url options.retries) }, ?_, rfl, ?_⟩
    · rw [h]
    · have hf := hfail options.retries
      cases hox : net url options.retries <;> rw [hox] at hf <;>
        simp [Outcome.isFailure] at hf <;> simp [failMsg]

/-- C3 amended witness: at the parseable URL `http://a` over the
always-failing network, `checkURL` does not reject and resolves with
`status = 0` and an error message. -/
theorem checkURL_no_throw_on_parseable_witness :
    urlParseOk "http://a" = true ∧
    ((checkURL netDown absResolve defaultOptions 5 "http://a" 1).1 ≠
      .thrown "Invalid URL") ∧
    (∃ r, (checkURL netDown absResolve defaultOptions 5 "http://a" 1).1 = .ok r ∧
      r.status = 0 ∧ r.error.isSome = true) := by
  exact ⟨by decide,
    checkURL_no_throw_on_parseable.1 netDown absResolve defaultOptions 5
      "http://a" 1 "Invalid URL" (by decide),
    checkURL_no_throw_on_parseable.2 netDown absResolve defaultOptions 5
      "http://a" (by decide) (by decide) (fun k => rfl) (by decide)⟩

/-- C6: `redirects` is empty unless `followRedirects` is true and at
least one 3xx-with-Location response was observed (every recorded entry
carries one of the statuses 301/302/307/308 that was actually received
with a truthy `Location`); in particular, with `followRedirects = false`
a 302 response is returned as-is: its status and status text are the
response's own and `redirects = []`. -/
theorem checkURL_redirects_invariant :
    ∀ (fuel : Nat) (net : String → Int → Outcome)
      (resolve : String → String → String) (options : Options) (url : String)
      (a : Int) (r : CheckResult) (evs : List Ev),
      checkURL net resolve options fuel url a = (.ok r, evs) →
      (options.followRedirects = false → r.redirects = []) ∧
      (r.redirects ≠ [] → options.followRedirects = true) ∧
      (∀ e ∈ r.redirects, e.status ∈ redirectCodes) ∧
      (∀ res, options.followRedirects = false → net url a = .response res →
        r.status = res.statusCode ∧ r.statusText = statusTextOf res.statusCode ∧
          r.redirects = []) := by
  intro fuel
  induction fuel with
  | zero =>
    intro net resolve options url a r evs heq
    simp [checkURL] at heq
  | succ fuel ih =>
    intro net resolve options url a r evs heq
    rw [checkURL] at heq
    split at heq
    · -- urlParseOk true
      split at heq
      next res hnet =>
        split at heq
        next hcond =>
          simp only [] at heq
          have hfr : options.followRedirects = true := by
            rcases Bool.and_eq_true_iff.mp hcond with ⟨h1, -⟩
            exact (Bool.and_eq_true_iff.mp h1).1
          have hcode : redirectCodes.contains res.statusCode = true := by
            rcases Bool.and_eq_true_iff.mp hcond with ⟨h1, -⟩
            exact (Bool.and_eq_true_iff.mp h1).2
          split at heq
          next hmax =>
            split at heq
            next rr evs2 hrec =>
              injection heq with h1 h2
              injection h1 with h1
              subst h1
              have ihh := ih net resolve options
                (resolve (headerLocation res.headers) url) 1 rr evs2 hrec
              refine ⟨?_, ?_, ?_, ?_⟩
              · intro hf
                rw [hf] at hfr
                exact absurd hfr (by simp)
              · intro _
                exact hfr
              · intro e he
                simp only [List.nil_append, List.cons_append, List.nil_append,
                  List.mem_cons] at he
                rcases he with he | he
                · subst he
                  simpa using hcode
                · exact ihh.2.2.1 e he
              · intro res2 hf hres
                rw [hf] at hfr
                exact absurd hfr (by simp)
            next m evs2 hrec =>
              simp at heq
            next evs2 hrec =>
              simp at heq
          next hmax =>
            injection heq with h1 h2
            injection h1 with h1
            subst h1
            refine ⟨fun _ => rfl, ?_, ?_, ?_⟩
            · intro hne
              simp at hne
            · intro e he
              simp at he
            · intro res2 hf hres
              have : res = res2 := by
                have h3 := hnet.symm.trans hres
                injection h3
              subst this
              exact ⟨rfl, rfl, rfl⟩
        next hcond =>
          simp only [] at heq
          injection heq with h1 h2
          injection h1 with h1
          subst h1
          refine ⟨fun _ => rfl, ?_, ?_, ?_⟩
          · intro hne
            simp at hne
          · intro e he
            simp at he
          · intro res2 hf hres
            have : res = res2 := by
              have h3 := hnet.symm.trans hres
              injection h3
            subst this
            exact ⟨rfl, rfl, rfl⟩
      next msg elapsed hnet =>
        split at heq
        next hlt =>
          simp only [] at heq
          injection heq with h1 h2
          have hrec : checkURL net resolve options fuel url (a + 1) =
              (CheckOutcome.ok r, (checkURL net resolve options fuel url (a + 1)).2) := by
            rw [← h1]
          have ihh := ih net resolve options url (a + 1) r _ hrec
          refine ⟨ihh.1, ihh.2.1, ihh.2.2.1, ?_⟩
          intro res2 hf hres
          exact absurd (hnet.symm.trans hres) (by simp)
        next hlt =>
          injection heq with h1 h2
          injection h1 with h1
          subst h1
          refine ⟨fun _ => rfl, ?_, ?_, ?_⟩
          · intro hne
            simp at hne
          · intro e he
            simp at he
          · intro res2 hf hres
            exact absurd (hnet.symm.trans hres) (by simp)
      next hnet =>
        split at heq
        next hlt =>
          simp only [] at heq
          injection heq with h1 h2
          have hrec : checkURL net resolve options fuel url (a + 1) =
              (CheckOutcome.ok r, (checkURL net resolve options fuel url (a + 1)).2) := by
            rw [← h1]
          have ihh := ih net resolve options url (a + 1) r _ hrec
          refine ⟨ihh.1, ihh.2.1, ihh.2.2.1, ?_⟩
          intro res2 hf hres
          exact absurd (hnet.symm.trans hres) (by simp)
        next hlt =>
          injection heq with h1 h2
          injection h1 with h1
          subst h1
          refine ⟨fun _ => rfl, ?_, ?_, ?_⟩
          · intro hne
            simp at hne
          · intro e he
            simp at he
          · intro res2 hf hres
            exact absurd (hnet.symm.trans hres) (by simp)
    · -- parse failed
      simp at heq

/-- C6 witness: a `--no-redirect` run against a server answering
302 Found with a `Location` header: the result keeps `status = 302` and
has no redirect entries. -/
theorem checkURL_redirects_invariant_witness :
    checkURL net302 absResolve optsNoRedirect 5 "http://x" 1 =
      (.ok { url := "http://x", status := 302, statusText := "Found",
             responseTime := 9, size := 4,
             headers := [("location", "http://y")], redirects := [],
             error := none },
       [.attempt "http://x" 1]) ∧
    ((optsNoRedirect.followRedirects = false →
        ({ url := "http://x", status := 302, statusText := "Found",
           responseTime := 9, size := 4,
           headers := [("location", "http://y")], redirects := [],
           error := none } : CheckResult).redirects = []) ∧
     (({ url := "http://x", status := 302, statusText := "Found",
         responseTime := 9, size := 4,
         headers := [("location", "http://y")], redirects := [],
         error := none } : CheckResult).redirects ≠ [] →
        optsNoRedirect.followRedirects = true) ∧
     (∀ e ∈ ({ url := "http://x", status := 302, statusText := "Found",
               responseTime := 9, size := 4,
               headers := [("location", "http://y")], redirects := [],
               error := none } : CheckResult).redirects,
        e.status ∈ redirectCodes) ∧
     (∀ res, optsNoRedirect.followRedirects = false →
        net302 "http://x" 1 = .response res →
        ({ url := "http://x", status := 302, statusText := "Found",
           responseTime := 9, size := 4,
           headers := [("location", "http://y")], redirects := [],
           error := none } : CheckResult).status = res.statusCode ∧
        ({ url := "http://x", status := 302, statusText := "Found",
           responseTime := 9, size := 4,
           headers := [("location", "http://y")], redirects := [],
           error := none } : CheckResult).statusText =
          statusTextOf res.statusCode ∧
        ({ url := "http://x", status := 302, statusText := "Found",
           responseTime := 9, size := 4,
           headers := [("location", "http://y")], redirects := [],
           error := none } : CheckResult).redirects = [])) := by
  exact ⟨by decide,
    checkURL_redirects_invariant 5 net302 absResolve optsNoRedirect "http://x" 1
      { url := "http://x", status := 302, statusText := "Found",
        responseTime := 9, size := 4,
        headers := [("location", "http://y")], redirects := [], error := none }
      [.attempt "http://x" 1] (by decide)⟩

/-- The head hop of a linked chain points at the start of its tail. -/
theorem chainLinks_cons (h : ChainHop) (t : List ChainHop) (finalURL : String)
    (hl : chainLinks (h :: t) finalURL) :
    h.location = chainStart t finalURL ∧ chainLinks t finalURL := by
  cases t with
  | nil => exact ⟨hl, trivial⟩
  | cons h2 t2 => exact ⟨hl.1, hl.2⟩

/-- C5: for every followed redirect chain (each hop a 3xx response with
a `Location`, the final hop a non-redirecting response), the result
keeps `url` equal to the initial URL, takes `status`, `statusText`,
`size` and `headers` from the final hop, sums every hop's individual
elapsed time into `responseTime`, and records one `{from, to, status}`
entry per hop followed, in traversal order.  (The hypotheses only need
`1 ≤ maxRedirects` because of the broken hop counter — see C2.) -/
theorem checkURL_redirect_chain (net : String → Int → Outcome)
    (resolve : String → String → String) (options : Options) :
    ∀ (hops : List ChainHop) (finalURL : String) (finalRes : Response) (fuel : Nat),
      options.followRedirects = true →
      1 ≤ options.maxRedirects →
      (∀ h ∈ hops, net h.url 1 = .response h.response) →
      net finalURL 1 = .response finalRes →
      chainLinks hops finalURL →
      (∀ h ∈ hops, redirectCodes.contains h.status = true) →
      (∀ h ∈ hops, h.location.isEmpty = false) →
      (∀ h ∈ hops, resolve h.location h.url = h.location) →
      (∀ h ∈ hops, urlParseOk h.url = true) →
      urlParseOk finalURL = true →
      (redirectCodes.contains finalRes.statusCode &&
        !(headerLocation finalRes.headers).isEmpty) = false →
      hops.length < fuel →
      checkURL net resolve options fuel (chainStart hops finalURL) 1 =
        (.ok { url := chainStart hops finalURL
               status := finalRes.statusCode
               statusText := statusTextOf finalRes.statusCode
               responseTime := (hops.map ChainHop.elapsed).sum + finalRes.elapsed
               size := finalRes.bodyLength
               headers := finalRes.headers
               redirects := hops.map (fun h => ⟨h.url, h.location, h.status⟩)
               error := none },
         hops.map (fun h => Ev.attempt h.url 1) ++ [Ev.attempt finalURL 1]) := by
  intro hops
  induction hops with
  | nil =>
    intro finalURL finalRes fuel hfr hmax hnet hfin hlinks hcodes hlocs hres
      hparse hparseF hstop hfuel
    cases fuel with
    | zero => omega
    | succ f =>
      have hcondF : (options.followRedirects &&
          redirectCodes.contains finalRes.statusCode &&
          !(headerLocation finalRes.headers).isEmpty) = false := by
        rw [Bool.and_assoc, hstop, Bool.and_false]
      rw [chainStart, checkURL, if_pos hparseF, hfin]
      simp only []
      rw [hcondF]
      simp
  | cons h t ihh =>
    intro finalURL finalRes fuel hfr hmax hnet hfin hlinks hcodes hlocs hres
      hparse hparseF hstop hfuel
    obtain ⟨hlink1, hlinks2⟩ := chainLinks_cons h t finalURL hlinks
    cases fuel with
    | zero => simp at hfuel
    | succ f =>
      have hmem : h ∈ h :: t := List.mem_cons_self h t
      have hloc_eq : headerLocation (h.response).headers = h.location := by
        simp [ChainHop.response, headerLocation]
      have hres_eq : resolve (headerLocation (h.response).headers) h.url =
          chainStart t finalURL := by
        rw [hloc_eq, hres h hmem]
        exact hlink1
      have hrec := ihh finalURL finalRes f hfr hmax
        (fun x hx => hnet x (List.mem_cons_of_mem h hx)) hfin hlinks2
        (fun x hx => hcodes x (List.mem_cons_of_mem h hx))
        (fun x hx => hlocs x (List.mem_cons_of_mem h hx))
        (fun x hx => hres x (List.mem_cons_of_mem h hx))
        (fun x hx => hparse x (List.mem_cons_of_mem h hx))
        hparseF hstop (by simp at hfuel; omega)
      have hcode2 := hcodes h hmem
      have hloc2 := hlocs h hmem
      have hmax2 : ((0 : Int) + 1) ≤ options.maxRedirects := by omega
      have hloc3 : (chainStart t finalURL).isEmpty = false := by
        rw [← hlink1]
        exact hloc2
      have hres3 : resolve (chainStart t finalURL) h.url = chainStart t finalURL := by
        rw [← hlink1]
        exact hres h hmem
      rw [chainStart, checkURL, if_pos (hparse h hmem), hnet h hmem]
      simp only []
      simp only [ChainHop.response, hfr, hcode2, hmax2, hlink1]
      simp [headerLocation, List.lookup, hloc3, hres3, hrec, hcode2, hmax2,
        add_assoc]
      exact hlink1.symm

/-- C5 witness: the two-hop chain `http://a → http://b → http://c`
against `netChain2`: the result keeps `url = "http://a"`, takes the 200
and its headers from `http://c`, sums 10+20+30 ms, and records both hops
in order. -/
theorem checkURL_redirect_chain_witness :
    checkURL netChain2 absResolve defaultOptions 5
        (chainStart hopsChain2 "http://c") 1 =
      (.ok { url := chainStart hopsChain2 "http://c",
             status := 200, statusText := statusTextOf 200,
             responseTime := (hopsChain2.map ChainHop.elapsed).sum + 30,
             size := 7, headers := [("content-type", "x")],
             redirects := hopsChain2.map
               (fun h => { fromURL := h.url, toURL := h.location,
                           status := h.status }),
             error := none },
       hopsChain2.map (fun h => Ev.attempt h.url 1) ++
         [Ev.attempt "http://c" 1]) := by
  exact checkURL_redirect_chain netChain2 absResolve defaultOptions hopsChain2
    "http://c" { statusCode := 200, headers := [("content-type", "x")],
                 bodyLength := 7, elapsed := 30 } 5
    rfl (by decide) (by decide) (by decide) ⟨rfl, rfl⟩ (by decide) (by decide)
    (by decide) (by decide) (by decide) (by decide) (by decide)

/-- C8 counterexample: the writer quotes fields but never escapes a
double quote inside them (`"${r.error || ''}"` with no replacement), so
a result whose `error` contains a double quote produces a malformed row:
re-parsing it does not yield the original fields (the reader rejects the
row). -/
theorem csv_quote_not_escaped :
    csvReadRow (csvRow rQuote) ≠ some (csvFields rQuote) ∧
    csvReadRow (csvRow rQuote) = none ∧
    rQuote.error = some "said \"hi\"" := by
  refine ⟨?_, by decide, rfl⟩
  intro h
  rw [(by decide : csvReadRow (csvRow rQuote) = none)] at h
  exact Option.noConfusion h

theorem csvReadQuoted_closed :
    ∀ (s rest : List Char), (∀ c ∈ s, c ≠ '"') → rest.head? ≠ some '"' →
      csvReadQuoted (s ++ '"' :: rest) = some (s, rest) := by
  intro s
  induction s with
  | nil =>
    intro rest hs hr
    cases rest with
    | nil => rfl
    | cons c2 r2 =>
      have hc2 : ¬c2 = '"' := by
        intro hthis
        exact hr (by rw [hthis]; rfl)
      rw [List.nil_append, csvReadQuoted.eq_def]
      simp [hc2]
  | cons c s' ih =>
    intro rest hs hr
    have hc : ¬c = '"' := hs c (List.mem_cons_self c s')
    rw [csvReadQuoted.eq_def]
    simp [hc, ih rest (fun x hx => hs x (List.mem_cons_of_mem c hx)) hr]

theorem takeWhile_dropWhile_append (p : Char → Bool) :
    ∀ (s r : List Char), (∀ c ∈ s, p c = true) →
      (∀ c, r.head? = some c → p c = false) →
      (s ++ r).takeWhile p = s ∧ (s ++ r).dropWhile p = r := by
  intro s
  induction s with
  | nil =>
    intro r hs hr
    cases r with
    | nil => exact ⟨rfl, rfl⟩
    | cons c rr =>
      have hc := hr c rfl
      simp [List.takeWhile_cons, List.dropWhile_cons, hc]
  | cons c s' ih =>
    intro r hs hr
    have hc := hs c (List.mem_cons_self c s')
    have hih := ih r (fun x hx => hs x (List.mem_cons_of_mem c hx)) hr
    simp [List.takeWhile_cons, List.dropWhile_cons, hc, hih.1, hih.2]

theorem csvReadField_quoted (s rest : List Char)
    (hs : ∀ c ∈ s, c ≠ '"') (hr : rest.head? ≠ some '"') :
    csvReadField ('"' :: (s ++ '"' :: rest)) = some (String.mk s, rest) := by
  have hcond : ('"' :: (s ++ '"' :: rest)).head? = some '"' := rfl
  rw [csvReadField, if_pos hcond]
  show (csvReadQuoted (s ++ '"' :: rest)).map _ = _
  rw [csvReadQuoted_closed s rest hs hr]
  rfl

theorem csvReadField_unquoted (s rest2 : List Char)
    (hs : ∀ c ∈ s, c ≠ ',' ∧ c ≠ '\n' ∧ c ≠ '"') :
    csvReadField (s ++ ',' :: rest2) = some (String.mk s, ',' :: rest2) := by
  have hp : ∀ c ∈ s, (!csvStop c) = true := by
    intro c hc
    obtain ⟨h1, h2, -⟩ := hs c hc
    simp [csvStop, h1, h2]
  have hr : ∀ c, (',' :: rest2).head? = some c → (!csvStop c) = false := by
    intro c hc
    injection hc with hc
    subst hc
    simp [csvStop]
  have htd := takeWhile_dropWhile_append (fun c => !csvStop c) s (',' :: rest2) hp hr
  have hhead : (s ++ ',' :: rest2).head? ≠ some '"' := by
    cases s with
    | nil => simp
    | cons c s' =>
      have := (hs c (List.mem_cons_self c s')).2.2
      simp [this]
  rw [csvReadField, if_neg hhead, htd.1, htd.2]

theorem csvReadRowAux_step (fuel : Nat) (cs : List Char) (f : String)
    (rest : List Char) (fs : List String) (rem : List Char)
    (h1 : csvReadField cs = some (f, ',' :: rest))
    (h2 : csvReadRowAux fuel rest = some (fs, rem)) :
    csvReadRowAux (fuel + 1) cs = some (f :: fs, rem) := by
  rw [csvReadRowAux, h1]
  simp [h2]

theorem csvReadRowAux_last (fuel : Nat) (cs : List Char) (f : String)
    (h1 : csvReadField cs = some (f, ['\n'])) :
    csvReadRowAux (fuel + 1) cs = some ([f], []) := by
  rw [csvReadRowAux, h1]
  rfl

theorem csvReadRowAux_sixFields (u S X R Z E : List Char) (k : Nat)
    (hu : ∀ c ∈ u, c ≠ '"') (hX : ∀ c ∈ X, c ≠ '"') (hE : ∀ c ∈ E, c ≠ '"')
    (hS : ∀ c ∈ S, c ≠ ',' ∧ c ≠ '\n' ∧ c ≠ '"')
    (hR : ∀ c ∈ R, c ≠ ',' ∧ c ≠ '\n' ∧ c ≠ '"')
    (hZ : ∀ c ∈ Z, c ≠ ',' ∧ c ≠ '\n' ∧ c ≠ '"') :
    csvReadRowAux (k + 6)
      ('"' :: (u ++ '"' :: ',' ::
        (S ++ ',' :: ('"' :: (X ++ '"' :: ',' ::
          (R ++ ',' :: (Z ++ ',' :: ('"' :: (E ++ ['"', '\n'])))))))))
      = some ([String.mk u, String.mk S, String.mk X, String.mk R,
               String.mk Z, String.mk E], []) := by
  have f6 : csvReadField ('"' :: (E ++ ['"', '\n'])) =
      some (String.mk E, ['\n']) :=
    csvReadField_quoted E ['\n'] hE (by decide)
  have a6 : csvReadRowAux (k + 1) ('"' :: (E ++ ['"', '\n'])) =
      some ([String.mk E], []) :=
    csvReadRowAux_last k _ _ f6
  have f5 : csvReadField (Z ++ ',' :: ('"' :: (E ++ ['"', '\n']))) =
      some (String.mk Z, ',' :: ('"' :: (E ++ ['"', '\n']))) :=
    csvReadField_unquoted Z _ hZ
  have a5 : csvReadRowAux (k + 2) (Z ++ ',' :: ('"' :: (E ++ ['"', '\n']))) =
      some ([String.mk Z, String.mk E], []) :=
    csvReadRowAux_step (k + 1) _ _ _ _ _ f5 a6
  have f4 : csvReadField (R ++ ',' :: (Z ++ ',' :: ('"' :: (E ++ ['"', '\n'])))) =
      some (String.mk R, ',' :: (Z ++ ',' :: ('"' :: (E ++ ['"', '\n'])))) :=
    csvReadField_unquoted R _ hR
  have a4 : csvReadRowAux (k + 3)
      (R ++ ',' :: (Z ++ ',' :: ('"' :: (E ++ ['"', '\n'])))) =
      some ([String.mk R, String.mk Z, String.mk E], []) :=
    csvReadRowAux_step (k + 2) _ _ _ _ _ f4 a5
  have f3 : csvReadField ('"' :: (X ++ '"' :: ',' ::
      (R ++ ',' :: (Z ++ ',' :: ('"' :: (E ++ ['"', '\n'])))))) =
      some (String.mk X, ',' ::
        (R ++ ',' :: (Z ++ ',' :: ('"' :: (E ++ ['"', '\n']))))) :=
    csvReadField_quoted X _ hX (by simp)
  have a3 : csvReadRowAux (k + 4) ('"' :: (X ++ '"' :: ',' ::
      (R ++ ',' :: (Z ++ ',' :: ('"' :: (E ++ ['"', '\n'])))))) =
      some ([String.mk X, String.mk R, String.mk Z, String.mk E], []) :=
    csvReadRowAux_step (k + 3) _ _ _ _ _ f3 a4
  have f2 : csvReadField (S ++ ',' :: ('"' :: (X ++ '"' :: ',' ::
      (R ++ ',' :: (Z ++ ',' :: ('"' :: (E ++ ['"', '\n']))))))) =
      some (String.mk S, ',' :: ('"' :: (X ++ '"' :: ',' ::
        (R ++ ',' :: (Z ++ ',' :: ('"' :: (E ++ ['"', '\n']))))))) :=
    csvReadField_unquoted S _ hS
  have a2 : csvReadRowAux (k + 5) (S ++ ',' :: ('"' :: (X ++ '"' :: ',' ::
      (R ++ ',' :: (Z ++ ',' :: ('"' :: (E ++ ['"', '\n']))))))) =
      some ([String.mk S, String.mk X, String.mk R, String.mk Z,
             String.mk E], []) :=
    csvReadRowAux_step (k + 4) _ _ _ _ _ f2 a3
  have f1 : csvReadField ('"' :: (u ++ '"' :: ',' ::
      (S ++ ',' :: ('"' :: (X ++ '"' :: ',' ::
        (R ++ ',' :: (Z ++ ',' :: ('"' :: (E ++ ['"', '\n']))))))))) =
      some (String.mk u, ',' :: (S ++ ',' :: ('"' :: (X ++ '"' :: ',' ::
        (R ++ ',' :: (Z ++ ',' :: ('"' :: (E ++ ['"', '\n'])))))))) :=
    csvReadField_quoted u _ hu (by simp)
  exact csvReadRowAux_step (k + 5) _ _ _ _ _ f1 a2

/-- C8 amended: a comma (or any character other than a double quote or a
newline, which the writer cannot represent) in `url`, `statusText` or
`error` round-trips: the CSV row re-parses to exactly the logical field
values.  The numeric columns are unquoted, so their rendered digits must
avoid the separators — hypotheses that hold for every rendered number
and are discharged by evaluation in the witness. -/
theorem csvRow_roundTrip (r : CheckResult)
    (hu : ∀ c ∈ r.url.data, c ≠ '"')
    (hst : ∀ c ∈ r.statusText.data, c ≠ '"')
    (herr : ∀ c ∈ (r.error.getD "").data, c ≠ '"')
    (hnum1 : ∀ c ∈ (toString r.status).data, c ≠ ',' ∧ c ≠ '\n' ∧ c ≠ '"')
    (hnum2 : ∀ c ∈ (toString r.responseTime).data, c ≠ ',' ∧ c ≠ '\n' ∧ c ≠ '"')
    (hnum3 : ∀ c ∈ (toString r.size).data, c ≠ ',' ∧ c ≠ '\n' ∧ c ≠ '"') :
    csvReadRow (csvRow r) = some (csvFields r) := by
  have d1 : ("\"" : String).data = ['"'] := rfl
  have d2 : ("\"," : String).data = ['"', ','] := rfl
  have d3 : (",\"" : String).data = [',', '"'] := rfl
  have d4 : ("," : String).data = [','] := rfl
  have d5 : ("\"\n" : String).data = ['"', '\n'] := rfl
  have hdata : (csvRow r).data = '"' :: (r.url.data ++ '"' :: ',' ::
      ((toString r.status).data ++ ',' :: ('"' :: (r.statusText.data ++ '"' :: ',' ::
        ((toString r.responseTime).data ++ ',' ::
          ((toString r.size).data ++ ',' ::
            ('"' :: ((r.error.getD "").data ++ ['"', '\n'])))))))) := by
    simp [csvRow, String.data_append, d1, d2, d3, d4, d5]
  obtain ⟨k, hk⟩ : ∃ k, (csvRow r).length + 1 = k + 6 := by
    refine ⟨(csvRow r).length - 5, ?_⟩
    have h5 : 5 ≤ (csvRow r).length := by
      have hlen : (csvRow r).length = (csvRow r).data.length := rfl
      rw [hlen, hdata]
      simp
      omega
    omega
  rw [csvReadRow, hk, hdata]
  rw [csvReadRowAux_sixFields r.url.data (toString r.status).data
    r.statusText.data (toString r.responseTime).data (toString r.size).data
    (r.error.getD "").data k hu hst herr hnum1 hnum2 hnum3]
  rfl

/-- C8 witness: `rComma`, whose `error` field contains a comma,
round-trips through the CSV writer and reader to its exact logical
fields. -/
theorem csvRow_roundTrip_witness :
    csvReadRow (csvRow rComma) = some (csvFields rComma) ∧
    csvFields rComma = ["http://a", "0", "Error", "12", "0",
      "connect ECONNREFUSED 93.184.216.34, port 80"] := by
  exact ⟨csvRow_roundTrip rComma (by decide) (by decide) (by decide)
    (by decide) (by decide) (by decide), by decide⟩

end HttpCheck
